/-
  Verification of the mensetu_renshyuu audio analysis pipeline.

  Shallow embedding of the DSP / scoring / buffering logic found in:
    - services/audio_processor.py        (AudioProcessor.analyze_voice_quality,
                                          AudioProcessor._analyze_voice_range)
    - src/audio/diarization.py           (Diarizer.assign_speakers_to_segments)
    - backend/services/realtime_analyzer.py (RealtimeAnalyzer.analyze_audio_chunk,
                                          transcription buffer accumulation)
    - backend/services/session_recorder.py  (SessionRecorder)
    - backend/services/audio_analysis.py (analyze_audio_features)
    - backend/services/voice_emotion.py  (analyze_voice_emotion)
    - backend/services/ai_analysis.py    (analyze_with_gemini and the
                                          rule-based fallback)
    - backend/services/post_session_pipeline.py (run_post_session_pipeline)

  Python floats are idealized as exact rationals (ℚ); Python `int()` is
  truncation toward zero; Python `round(x, 1)` is round-half-to-even at one
  decimal digit.  Fallible code is modelled with `Except`/`Option`.
-/
import Mathlib

/-! ## Python numeric primitives -/

/-- Python `int(x)` on a float: truncation toward zero. -/
def pyint (q : ℚ) : ℤ := if 0 ≤ q then ⌊q⌋ else ⌈q⌉

/-- Python `max(0, min(100, n))` on integers: clamp into `[0, 100]`. -/
def clamp100 (n : ℤ) : ℤ := max 0 (min 100 n)

theorem clamp100_bounds (n : ℤ) : 0 ≤ clamp100 n ∧ clamp100 n ≤ 100 := by
  unfold clamp100
  constructor
  · exact le_max_left 0 _
  · rcases le_total 100 n with h | h <;> simp [min_def, max_def] <;> split <;> omega

/-- Round-half-to-even to the nearest integer (CPython `round` semantics,
idealized over ℚ). -/
def rhe (q : ℚ) : ℤ :=
  if q - ⌊q⌋ < 1/2 then ⌊q⌋
  else if 1/2 < q - ⌊q⌋ then ⌊q⌋ + 1
  else if 2 ∣ ⌊q⌋ then ⌊q⌋ else ⌊q⌋ + 1

/-- Python `round(x, 1)`: round-half-even at one decimal digit. -/
def pyRound1 (q : ℚ) : ℚ := (rhe (q * 10) : ℚ) / 10

theorem rhe_le (q : ℚ) : (rhe q : ℚ) ≤ q + 1/2 := by
  have h1 : (⌊q⌋ : ℚ) ≤ q := Int.floor_le q
  have h2 : q < ⌊q⌋ + 1 := Int.lt_floor_add_one q
  unfold rhe
  split
  · linarith
  · split
    · push_cast; linarith
    · split <;> push_cast <;> linarith

theorem le_rhe (q : ℚ) : q - 1/2 ≤ (rhe q : ℚ) := by
  have h1 : (⌊q⌋ : ℚ) ≤ q := Int.floor_le q
  have h2 : q < ⌊q⌋ + 1 := Int.lt_floor_add_one q
  unfold rhe
  split
  · next h => linarith
  · split
    · push_cast; linarith
    · next h h' =>
      have : q - ⌊q⌋ = 1/2 := by linarith [le_of_not_lt h, le_of_not_lt h']
      split <;> push_cast <;> linarith

theorem pyRound1_le (q : ℚ) : pyRound1 q ≤ q + 1/20 := by
  have := rhe_le (q * 10)
  unfold pyRound1
  linarith

theorem le_pyRound1 (q : ℚ) : q - 1/20 ≤ pyRound1 q := by
  have := le_rhe (q * 10)
  unfold pyRound1
  linarith

/-! ## VoiceScoreEngine: `AudioProcessor.analyze_voice_quality`
    (services/audio_processor.py, lines 283-369)

    Input features are the fields read from the `analyze_audio()` result dict;
    `voice_range` percentages are the low/mid/high values of the voice-range
    sub-dict (the code reads them with defaults 30/40/20 via `.get`, here the
    present-key case is modelled, with the values arbitrary rationals). -/

structure AcousticFeatureSet where
  jitter : ℚ
  pitch_mean : ℚ
  pitch_std : ℚ
  energy_variance : ℚ
  pause_count : ℚ
  duration : ℚ
  vr_low : ℚ
  vr_mid : ℚ
  vr_high : ℚ
deriving DecidableEq

structure VoiceQualityDims where
  social : ℤ
  action : ℤ
  emotion : ℤ
  instinct : ℤ
  presence : ℤ
  self_expression : ℤ
  harmony : ℤ
  balance : ℤ
  adaptation : ℤ
  thinking : ℤ
  analysis : ℤ
  sensation : ℤ
deriving DecidableEq

/-- `AudioProcessor.analyze_voice_quality`: the 12-axis voice profile.
Each Python assignment `dimensions[k] = max(0, min(100, v))` is mirrored
by `clamp100`; `int(...)` is `pyint`; float literals `1.5`, `1.3`, `1.8`
are their exact decimal values. -/
def analyze_voice_quality (f : AcousticFeatureSet) : VoiceQualityDims :=
  let social := 70 - pyint (f.jitter * 5) +
      min 20 (pyint (f.pause_count / max f.duration 1 * 15))
  let social := clamp100 social
  let action := min 100 (pyint (f.energy_variance * 300 + 40))
  let action := clamp100 action
  let emotion := min 100 (pyint (f.pitch_std / 10 * 50 + 30))
  let emotion := clamp100 emotion
  let instinct := clamp100 (pyint (f.vr_low * (3/2)))
  let presence := min 100 (pyint ((f.pitch_mean / 250) * 60 + (100 - f.jitter * 5)))
  let presence := clamp100 presence
  let self_expr := clamp100 (pyint (f.vr_mid * (13/10)))
  let harmony := clamp100 (100 - min 100 (pyint (f.jitter * 8)))
  let balance := clamp100 (100 - min 100 (pyint (f.energy_variance * 800)))
  let adapt := clamp100 (min 100 (50 + pyint (f.pause_count / max f.duration 1 * 30)))
  let thinking := clamp100 (pyint (f.vr_high * (9/5)))
  let analysis := clamp100 (100 - min 100 (pyint (f.pitch_std / 5)))
  let sensation := clamp100 (pyint (((emotion : ℚ) + (presence : ℚ)) / 2))
  ⟨social, action, emotion, instinct, presence, self_expr,
   harmony, balance, adapt, thinking, analysis, sensation⟩

/-- C1: For every input AcousticFeatureSet (any jitter, pitch_mean, pitch_std,
energy_variance, pause_count, duration, voice_range values, including 0 and
very large values), each of the 12 axis scores produced by
`analyze_voice_quality` (social, action, emotion, instinct, presence,
self_expression, harmony, balance, adaptation, thinking, analysis, sensation)
is an integer within [0,100]. -/
theorem voice_quality_axes_bounded (f : AcousticFeatureSet) :
    let d := analyze_voice_quality f
    (0 ≤ d.social ∧ d.social ≤ 100) ∧
    (0 ≤ d.action ∧ d.action ≤ 100) ∧
    (0 ≤ d.emotion ∧ d.emotion ≤ 100) ∧
    (0 ≤ d.instinct ∧ d.instinct ≤ 100) ∧
    (0 ≤ d.presence ∧ d.presence ≤ 100) ∧
    (0 ≤ d.self_expression ∧ d.self_expression ≤ 100) ∧
    (0 ≤ d.harmony ∧ d.harmony ≤ 100) ∧
    (0 ≤ d.balance ∧ d.balance ≤ 100) ∧
    (0 ≤ d.adaptation ∧ d.adaptation ≤ 100) ∧
    (0 ≤ d.thinking ∧ d.thinking ≤ 100) ∧
    (0 ≤ d.analysis ∧ d.analysis ≤ 100) ∧
    (0 ≤ d.sensation ∧ d.sensation ≤ 100) := by
  refine ⟨?_, ?_, ?_, ?_, ?_, ?_, ?_, ?_, ?_, ?_, ?_, ?_⟩ <;>
    exact clamp100_bounds _

/-! ## Voice range: `AudioProcessor._analyze_voice_range`
    (services/audio_processor.py, lines 235-281) -/

structure VoiceRange where
  low : ℚ
  mid : ℚ
  high : ℚ
  dominant : String
deriving DecidableEq

/-- `AudioProcessor._analyze_voice_range`: low/mid/high register percentages
(rounded to one decimal with Python `round(x, 1)`) plus dominant register. -/
def analyze_voice_range (pitch_values : List ℚ) : VoiceRange :=
  if pitch_values.isEmpty then ⟨0, 0, 0, "不明"⟩
  else
    let lowCount : ℤ := pitch_values.countP (fun p => decide (p < 150))
    let highCount : ℤ := pitch_values.countP (fun p => decide (250 < p))
    let total : ℤ := pitch_values.length
    let midCount : ℤ := total - lowCount - highCount
    let lowPct : ℚ := if 0 < total then (lowCount : ℚ) / (total : ℚ) * 100 else 0
    let midPct : ℚ := if 0 < total then (midCount : ℚ) / (total : ℚ) * 100 else 0
    let highPct : ℚ := if 0 < total then (highCount : ℚ) / (total : ℚ) * 100 else 0
    let dominant := if lowPct > midPct ∧ lowPct > highPct then "低音域"
      else if highPct > midPct ∧ highPct > lowPct then "高音域"
      else "中音域"
    ⟨pyRound1 lowPct, pyRound1 midPct, pyRound1 highPct, dominant⟩

/-- C6 counterexample: on six pitched frames with register counts (1, 4, 1)
the exact percentages are 50/3, 200/3, 50/3; after rounding to one decimal
the returned fields are 16.7 + 66.7 + 16.7 = 100.1 > 100, refuting the
claim that the returned percentage fields always sum to at most 100. -/
theorem voice_range_sum_gt_100 :
    let r := analyze_voice_range [100, 300, 200, 200, 200, 200]
    r.low + r.mid + r.high = 1001/10 ∧ ¬ (r.low + r.mid + r.high ≤ 100) := by
  intro r
  have hcl : List.countP (fun p => decide (p < 150))
      [(100:ℚ), 300, 200, 200, 200, 200] = 1 := by
    norm_num [List.countP_cons, List.countP_nil]
  have hch : List.countP (fun p => decide (250 < p))
      [(100:ℚ), 300, 200, 200, 200, 200] = 1 := by
    norm_num [List.countP_cons, List.countP_nil]
  have hr : r = ⟨167/10, 667/10, 167/10, "中音域"⟩ := by
    show analyze_voice_range _ = _
    unfold analyze_voice_range
    rw [List.isEmpty_cons]
    simp only [Bool.false_eq_true, if_false, hcl, hch]
    norm_num [pyRound1, rhe]
  rw [hr]
  norm_num

/-- C6 amended: with no pitched frames the three returned fields are all 0
(sum 0); with at least one pitched frame the exact percentages sum to
exactly 100, and the returned fields — each rounded to one decimal, hence
within 1/20 of exact — sum to within 3/20 of 100. -/
theorem voice_range_sum_amended (pitch_values : List ℚ) :
    (pitch_values = [] →
      (analyze_voice_range pitch_values).low +
          (analyze_voice_range pitch_values).mid +
          (analyze_voice_range pitch_values).high = 0) ∧
    (pitch_values ≠ [] →
      100 - 3/20 ≤ (analyze_voice_range pitch_values).low +
          (analyze_voice_range pitch_values).mid +
          (analyze_voice_range pitch_values).high ∧
        (analyze_voice_range pitch_values).low +
          (analyze_voice_range pitch_values).mid +
          (analyze_voice_range pitch_values).high ≤ 100 + 3/20) := by
  constructor
  · rintro rfl
    simp [analyze_voice_range]
  · intro hne
    have hlen : 0 < pitch_values.length := List.length_pos.mpr hne
    have hEmpty : pitch_values.isEmpty = false := by
      simpa [List.isEmpty_iff] using hne
    simp only [analyze_voice_range, hEmpty, Bool.false_eq_true, if_false]
    have htot : (0 : ℤ) < (pitch_values.length : ℤ) := by exact_mod_cast hlen
    simp only [htot, if_true]
    set lc : ℤ := (pitch_values.countP (fun p => decide (p < 150)) : ℤ) with hlc
    set hc : ℤ := (pitch_values.countP (fun p => decide (250 < p)) : ℤ) with hhc
    set n : ℤ := (pitch_values.length : ℤ) with hn
    have hnQ : ((n : ℚ)) ≠ 0 := by
      have : (0 : ℚ) < (n : ℚ) := by exact_mod_cast htot
      linarith
    have hsum : (lc : ℚ) / n * 100 + ((n - lc - hc : ℤ) : ℚ) / n * 100 +
        (hc : ℚ) / n * 100 = 100 := by
      push_cast
      field_simp
      ring
    have b1l := le_pyRound1 ((lc : ℚ) / n * 100)
    have b1u := pyRound1_le ((lc : ℚ) / n * 100)
    have b2l := le_pyRound1 (((n - lc - hc : ℤ) : ℚ) / n * 100)
    have b2u := pyRound1_le (((n - lc - hc : ℤ) : ℚ) / n * 100)
    have b3l := le_pyRound1 ((hc : ℚ) / n * 100)
    have b3u := pyRound1_le ((hc : ℚ) / n * 100)
    refine ⟨?_, ?_⟩ <;>
      push_cast at b1l b1u b2l b2u b3l b3u hsum ⊢ <;> linarith

/-- C6 amended, witness at a concrete single-frame input. -/
theorem voice_range_sum_amended_witness :
    (100 : ℚ) - 3/20 ≤ (analyze_voice_range [200]).low +
        (analyze_voice_range [200]).mid + (analyze_voice_range [200]).high ∧
      (analyze_voice_range [200]).low + (analyze_voice_range [200]).mid +
        (analyze_voice_range [200]).high ≤ 100 + 3/20 :=
  (voice_range_sum_amended [200]).2 (by simp)

/-! ## Pause detection: `analyze_audio_features`
    (backend/services/audio_analysis.py, lines 45-61)

    `intervals` is the voiced-interval list from `librosa.effects.split`
    (pairs of sample indices); the loop inspects each consecutive pair and
    keeps the gap when its duration in seconds is `>= 0.5`. -/

/-- Duration of each gap between consecutive voiced intervals, in seconds
(`intervals[i+1][0]/sr - intervals[i][1]/sr`). -/
def gapDurations (intervals : List (ℤ × ℤ)) (sr : ℚ) : List ℚ :=
  (intervals.zip intervals.tail).map (fun p => (p.2.1 : ℚ) / sr - (p.1.2 : ℚ) / sr)

/-- The `pauses` list built by `analyze_audio_features`: gaps between
consecutive voiced intervals whose duration is at least 0.5 s. -/
def detectPauses (intervals : List (ℤ × ℤ)) (sr : ℚ) : List ℚ :=
  (intervals.zip intervals.tail).filterMap (fun p =>
    let d := (p.2.1 : ℚ) / sr - (p.1.2 : ℚ) / sr
    if 1/2 ≤ d then some d else none)

theorem filterMap_threshold {α : Type} (l : List α) (f : α → ℚ) :
    l.filterMap (fun x => if 1/2 ≤ f x then some (f x) else none) =
      (l.map f).filter (fun d => decide (1/2 ≤ d)) := by
  induction l with
  | nil => rfl
  | cons x xs ih =>
    by_cases h : (1:ℚ)/2 ≤ f x
    · simp only [List.filterMap_cons, List.map_cons, List.filter_cons, if_pos h,
        decide_eq_true h, if_true, ih]
    · simp only [List.filterMap_cons, List.map_cons, List.filter_cons, if_neg h,
        decide_eq_false h, Bool.false_eq_true, if_false, ih]

/-- C7: a gap between consecutive voiced intervals is counted as a pause iff
its duration is ≥ 0.5 s (inclusive boundary: the counted pauses are exactly
the gap durations passing the `1/2 ≤ d` filter), and a single voiced
interval yields no pauses (pause_count = 0) without error. -/
theorem pause_threshold_inclusive (intervals : List (ℤ × ℤ)) (sr : ℚ) :
    detectPauses intervals sr =
        (gapDurations intervals sr).filter (fun d => decide ((1:ℚ)/2 ≤ d)) ∧
      ∀ iv : ℤ × ℤ, detectPauses [iv] sr = [] := by
  constructor
  · exact filterMap_threshold _ _
  · intro iv
    rfl

/-! ## Pitch statistics: `analyze_audio_features` (lines 63-80) and
    `analyze_voice_emotion` (backend/services/voice_emotion.py, lines 36-51)

    Both files contain the identical extraction: the per-frame pitch chosen
    at the magnitude argmax is kept only when `pitch > 0`; if no frame
    qualifies, mean and deviation default to 0.0.  `frames` is the list of
    per-frame chosen pitches.  `np.std` is the square root of the second
    component returned here; since √0 = 0 the degenerate defaults agree. -/

def extract_pitch_values (frames : List ℚ) : List ℚ :=
  frames.filter (fun p => decide (0 < p))

/-- Mean and mean squared deviation of the voiced frames; `(0, 0)` when no
frame has a detected pitch. -/
def pitch_stats (frames : List ℚ) : ℚ × ℚ :=
  let pv := extract_pitch_values frames
  if pv.isEmpty then (0, 0)
  else
    let n : ℚ := pv.length
    let mean := pv.sum / n
    let varSq := (pv.map (fun p => (p - mean) ^ 2)).sum / n
    (mean, varSq)

theorem extract_pitch_values_idem (frames : List ℚ) :
    extract_pitch_values (extract_pitch_values frames) =
      extract_pitch_values frames := by
  simp [extract_pitch_values, List.filter_filter]

/-- C8: completely unvoiced input (no frame with detected pitch) yields
pitch mean 0.0 and deviation 0.0 rather than NaN (the statistics are total,
never the mean of an empty list), and on partially voiced input the
statistics depend only on the voiced frames: frames without detected pitch
are excluded, not coerced to zero. -/
theorem pitch_stats_exclude_unvoiced (frames : List ℚ) :
    (extract_pitch_values frames = [] → pitch_stats frames = (0, 0)) ∧
      pitch_stats frames = pitch_stats (extract_pitch_values frames) := by
  constructor
  · intro h
    simp [pitch_stats, h]
  · simp only [pitch_stats, extract_pitch_values_idem]

/-- C8 witness: an input with one unvoiced (0) and one voiced (200) frame.
The hypothesis of the first conjunct is discharged at `[0, 0]`. -/
theorem pitch_stats_exclude_unvoiced_witness :
    pitch_stats [0, 0] = (0, 0) ∧
      pitch_stats [0, 200] = pitch_stats (extract_pitch_values [0, 200]) :=
  ⟨(pitch_stats_exclude_unvoiced [0, 0]).1 (by decide),
   (pitch_stats_exclude_unvoiced [0, 200]).2⟩

/-! ## Speaker assignment: `Diarizer.assign_speakers_to_segments`
    (src/audio/diarization.py, lines 119-165)

    For each transcript segment the loop scans the diarization turns in list
    order, tracking the best speaker so far (initially the sentinel `"不明"`,
    "unknown") and the largest overlap so far (initially 0); a turn takes
    over only when its overlap is strictly larger. -/

structure DiarizationTurn where
  start : ℚ
  stop : ℚ
  speaker : String
deriving DecidableEq

structure TranscriptSegment where
  start : ℚ
  stop : ℚ
  text : String
  speaker : String
deriving DecidableEq

/-- Temporal overlap `max(0, min(segEnd, turnEnd) - max(segStart, turnStart))`. -/
def overlapLen (ts te : ℚ) (t : DiarizationTurn) : ℚ :=
  max 0 (min te t.stop - max ts t.start)

/-- The per-segment loop body of `assign_speakers_to_segments`: scan the
turns keeping `(best_speaker, max_overlap)`. -/
def assignGo (ts te : ℚ) : String × ℚ → List DiarizationTurn → String × ℚ
  | acc, [] => acc
  | (best, mo), t :: rest =>
      if mo < overlapLen ts te t then
        assignGo ts te (t.speaker, overlapLen ts te t) rest
      else
        assignGo ts te (best, mo) rest

/-- Speaker label chosen for a transcript segment `[ts, te]`. -/
def assignSpeaker (ts te : ℚ) (turns : List DiarizationTurn) : String :=
  (assignGo ts te ("不明", 0) turns).1

/-- `Diarizer.assign_speakers_to_segments`: label every transcript segment
(given as `(start, end, text)`) with its chosen speaker. -/
def assign_speakers_to_segments (segs : List (ℚ × ℚ × String))
    (turns : List DiarizationTurn) : List TranscriptSegment :=
  segs.map (fun s => ⟨s.1, s.2.1, s.2.2, assignSpeaker s.1 s.2.1 turns⟩)

/-- Running maximum of the overlaps, seeded with `mo`. -/
def maxOverlapFrom (ts te : ℚ) : ℚ → List DiarizationTurn → ℚ
  | mo, [] => mo
  | mo, t :: rest => maxOverlapFrom ts te (max mo (overlapLen ts te t)) rest

/-- Largest overlap of segment `[ts, te]` against any turn (0 if none). -/
def maxOverlap (ts te : ℚ) (turns : List DiarizationTurn) : ℚ :=
  maxOverlapFrom ts te 0 turns

theorem le_maxOverlapFrom (ts te : ℚ) (turns : List DiarizationTurn) :
    ∀ mo : ℚ, mo ≤ maxOverlapFrom ts te mo turns := by
  induction turns with
  | nil => intro mo; exact le_refl _
  | cons t rest ih =>
    intro mo
    calc mo ≤ max mo (overlapLen ts te t) := le_max_left _ _
    _ ≤ maxOverlapFrom ts te (max mo (overlapLen ts te t)) rest := ih _

theorem assignGo_fst_of_le (ts te : ℚ) (turns : List DiarizationTurn) :
    ∀ (b : String) (mo : ℚ), maxOverlapFrom ts te mo turns ≤ mo →
      (assignGo ts te (b, mo) turns).1 = b := by
  induction turns with
  | nil => intro b mo _; rfl
  | cons t rest ih =>
    intro b mo h
    have hseed : max mo (overlapLen ts te t) ≤ maxOverlapFrom ts te _ rest :=
      le_maxOverlapFrom ts te rest _
    have hov : overlapLen ts te t ≤ mo := by
      have := le_trans (le_max_right mo (overlapLen ts te t)) hseed
      exact le_trans this h
    have hmax : max mo (overlapLen ts te t) = mo := max_eq_left hov
    rw [assignGo, if_neg (not_lt.mpr hov)]
    apply ih
    have : maxOverlapFrom ts te (max mo (overlapLen ts te t)) rest ≤ mo := h
    rwa [hmax] at this

theorem assignGo_fst_first_max (ts te : ℚ) (turns : List DiarizationTurn) :
    ∀ (b : String) (mo : ℚ), mo < maxOverlapFrom ts te mo turns →
      ∃ t, turns.find?
          (fun t => decide (overlapLen ts te t = maxOverlapFrom ts te mo turns)) =
            some t ∧
        (assignGo ts te (b, mo) turns).1 = t.speaker := by
  induction turns with
  | nil => intro b mo h; exact absurd h (lt_irrefl mo)
  | cons t rest ih =>
    intro b mo h
    by_cases hov : mo < overlapLen ts te t
    · have hmax : max mo (overlapLen ts te t) = overlapLen ts te t :=
        max_eq_right hov.le
      by_cases h2 : maxOverlapFrom ts te (overlapLen ts te t) rest ≤ overlapLen ts te t
      · have hM : maxOverlapFrom ts te mo (t :: rest) = overlapLen ts te t := by
          rw [maxOverlapFrom, hmax]
          exact le_antisymm h2 (le_maxOverlapFrom ts te rest _)
        refine ⟨t, ?_, ?_⟩
        · rw [List.find?_cons_of_pos]
          simp [hM]
        · rw [assignGo, if_pos hov]
          exact assignGo_fst_of_le ts te rest t.speaker _ h2
      · push_neg at h2
        have hM : maxOverlapFrom ts te mo (t :: rest) =
            maxOverlapFrom ts te (overlapLen ts te t) rest := by
          rw [maxOverlapFrom, hmax]
        obtain ⟨t', hfind, hgo⟩ := ih t.speaker (overlapLen ts te t) h2
        refine ⟨t', ?_, ?_⟩
        · rw [List.find?_cons_of_neg, hM]
          · exact hfind
          · simp only [decide_eq_true_eq, hM]
            exact ne_of_lt (lt_of_lt_of_le h2 (le_refl _))
        · rw [assignGo, if_pos hov]
          exact hgo
    · have hle : overlapLen ts te t ≤ mo := not_lt.mp hov
      have hmax : max mo (overlapLen ts te t) = mo := max_eq_left hle
      have hM : maxOverlapFrom ts te mo (t :: rest) = maxOverlapFrom ts te mo rest := by
        rw [maxOverlapFrom, hmax]
      rw [hM] at h
      obtain ⟨t', hfind, hgo⟩ := ih b mo h
      refine ⟨t', ?_, ?_⟩
      · rw [List.find?_cons_of_neg, hM]
        · exact hfind
        · simp only [decide_eq_true_eq, hM]
          exact ne_of_lt (lt_of_le_of_lt hle h)
      · rw [assignGo, if_neg hov]
        exact hgo

theorem maxOverlapFrom_all_zero (ts te : ℚ) (turns : List DiarizationTurn)
    (h : ∀ t ∈ turns, overlapLen ts te t = 0) :
    maxOverlap ts te turns = 0 := by
  unfold maxOverlap
  induction turns with
  | nil => rfl
  | cons t rest ih =>
    rw [maxOverlapFrom, h t (List.mem_cons_self t rest), max_self]
    exact ih (fun t' ht' => h t' (List.mem_cons_of_mem t ht'))

/-- C2 counterexample: with the turn list `[(10,20,"X"), (0,10,"Y")]` and the
segment `[0,20]`, both turns overlap the segment by exactly 10 s, the turn
labelled "Y" has the earlier start, yet the code assigns "X" — the first
turn in list order — refuting the claimed earliest-start tie-break. -/
theorem assign_tiebreak_not_earliest_start :
    let tX : DiarizationTurn := ⟨10, 20, "X"⟩
    let tY : DiarizationTurn := ⟨0, 10, "Y"⟩
    overlapLen 0 20 tX = overlapLen 0 20 tY ∧
      tY.start < tX.start ∧
      assign_speakers_to_segments [(0, 20, "こんにちは")] [tX, tY] =
        [⟨0, 20, "こんにちは", "X"⟩] := by
  refine ⟨?_, by norm_num, ?_⟩
  · show max 0 (min 20 20 - max 0 10) = max 0 (min 20 10 - max 0 0)
    norm_num
  · show [(⟨0, 20, "こんにちは", (assignGo 0 20 ("不明", 0) _).1⟩ : TranscriptSegment)] = _
    have h1 : overlapLen 0 20 (⟨10, 20, "X"⟩ : DiarizationTurn) = 10 := by
      show max 0 (min 20 20 - max 0 10) = 10
      norm_num
    have h2 : overlapLen 0 20 (⟨0, 10, "Y"⟩ : DiarizationTurn) = 10 := by
      show max 0 (min 20 10 - max 0 0) = 10
      norm_num
    rw [assignGo, if_pos (by rw [h1]; norm_num), assignGo,
      if_neg (by rw [h1, h2]; norm_num), assignGo]

/-- C2 amended: each transcript segment keeps its start/end/text and receives
the speaker of the turn with maximum temporal overlap
(`max(0, min(segEnd,turnEnd) - max(segStart,turnStart))`); when several turns
tie at the maximal overlap the FIRST TURN IN LIST ORDER wins (not the one
with the earliest start), and a segment whose overlap with every turn is zero
receives the sentinel `"不明"` ("unknown") label; the operation is total. -/
theorem assign_speakers_spec (ts te : ℚ) (turns : List DiarizationTurn)
    (segs : List (ℚ × ℚ × String)) :
    ((∀ t ∈ turns, overlapLen ts te t = 0) → assignSpeaker ts te turns = "不明") ∧
      (0 < maxOverlap ts te turns →
        ∃ t, turns.find?
            (fun t => decide (overlapLen ts te t = maxOverlap ts te turns)) =
              some t ∧
          assignSpeaker ts te turns = t.speaker) ∧
      assign_speakers_to_segments segs turns =
        segs.map (fun s => ⟨s.1, s.2.1, s.2.2, assignSpeaker s.1 s.2.1 turns⟩) := by
  refine ⟨?_, ?_, rfl⟩
  · intro h
    have hz : maxOverlap ts te turns = 0 := maxOverlapFrom_all_zero ts te turns h
    unfold assignSpeaker
    exact assignGo_fst_of_le ts te turns _ 0 (le_of_eq hz)
  · intro h
    exact assignGo_fst_first_max ts te turns "不明" 0 h

/-- C2 amended, witness: a one-turn instance discharging both hypotheses
(an all-zero-overlap segment gets "不明"; a positively overlapping segment
gets the first maximal turn's label). -/
theorem assign_speakers_spec_witness :
    assignSpeaker 0 10 [⟨20, 30, "A"⟩] = "不明" ∧
      ∃ t, List.find?
          (fun t => decide (overlapLen 0 10 t =
            maxOverlap 0 10 [⟨0, 10, "A"⟩])) [(⟨0, 10, "A"⟩ : DiarizationTurn)] =
            some t ∧
        assignSpeaker 0 10 [⟨0, 10, "A"⟩] = t.speaker := by
  constructor
  · apply (assign_speakers_spec 0 10 [⟨20, 30, "A"⟩] []).1
    intro t ht
    rw [List.mem_singleton] at ht
    subst ht
    show max 0 (min 10 30 - max 0 20) = 0
    norm_num
  · apply (assign_speakers_spec 0 10 [⟨0, 10, "A"⟩] []).2.1
    show 0 < maxOverlapFrom 0 10 0 _
    rw [maxOverlapFrom, maxOverlapFrom]
    show (0:ℚ) < max 0 (max 0 (min 10 10 - max 0 0))
    norm_num

/-! ## Streaming transcription buffer: `RealtimeAnalyzer.analyze_audio_chunk`
    (backend/services/realtime_analyzer.py, lines 141-152)

    Chunks of raw PCM bytes are appended to `accumulated_audio`; once its
    length reaches `transcription_threshold` (5 s of 16 kHz 16-bit mono) the
    whole buffer is handed to `_transcribe_audio` and the buffer is reset to
    its trailing `overlap_size` bytes (`buf[-overlap_size:]`, 2 s). -/

/-- `self.transcription_threshold = 16000 * 2 * 5` (bytes, 5 s). -/
def transcription_threshold : ℕ := 16000 * 2 * 5

/-- `overlap_size = 16000 * 2 * 2` (bytes, 2 s). -/
def overlap_size : ℕ := 16000 * 2 * 2

/-- Python `buf[-n:]`: the trailing `n` elements (whole list if shorter). -/
def takeLast {α : Type} (n : ℕ) (l : List α) : List α := l.drop (l.length - n)

/-- One call of `analyze_audio_chunk`, restricted to the transcription-buffer
logic: returns the new buffer and the list of buffers handed to analysis
(empty or a singleton). -/
def processChunk (buf chunk : List ℕ) : List ℕ × List (List ℕ) :=
  let buf' := buf ++ chunk
  if transcription_threshold ≤ buf'.length then
    (takeLast overlap_size buf', [buf'])
  else (buf', [])

/-- Feed a sequence of chunks through `processChunk`, collecting every buffer
handed to the analysis stage. -/
def feedChunks : List ℕ → List (List ℕ) → List ℕ × List (List ℕ)
  | buf, [] => (buf, [])
  | buf, c :: cs =>
    let r := processChunk buf c
    let rest := feedChunks r.1 cs
    (rest.1, r.2 ++ rest.2)

theorem takeLast_length {α : Type} (n : ℕ) (l : List α) (h : n ≤ l.length) :
    (takeLast n l).length = n := by
  unfold takeLast
  rw [List.length_drop]
  omega

theorem feedChunks_trigger_aux (cs : List (List ℕ)) :
    ∀ b : List ℕ, cs ≠ [] →
      (∀ k < cs.length,
        b.length + ((cs.take k).map List.length).sum < transcription_threshold) →
      transcription_threshold ≤ b.length + (cs.map List.length).sum →
      feedChunks b cs =
        (takeLast overlap_size (b ++ cs.flatten), [b ++ cs.flatten]) := by
  induction cs with
  | nil => intro b hne _ _; exact absurd rfl hne
  | cons c cs ih =>
    intro b _ hpre htot
    match cs with
    | [] =>
      have hcond : transcription_threshold ≤ (b ++ c).length := by
        rw [List.length_append]
        simpa using htot
      show (let r := processChunk b c
            let rest := feedChunks r.1 []
            (rest.1, r.2 ++ rest.2)) = _
      simp only [processChunk, if_pos hcond, feedChunks, List.flatten_cons,
        List.flatten_nil, List.append_nil]
    | c' :: cs' =>
      have h1 : b.length + c.length < transcription_threshold := by
        have := hpre 1 (by simp)
        simpa using this
      have hcond : ¬ transcription_threshold ≤ (b ++ c).length := by
        rw [List.length_append]
        omega
      have step : feedChunks b (c :: c' :: cs') =
          feedChunks (b ++ c) (c' :: cs') := by
        show (let r := processChunk b c
              let rest := feedChunks r.1 (c' :: cs')
              (rest.1, r.2 ++ rest.2)) = _
        simp only [processChunk, if_neg hcond, List.nil_append]
      rw [step]
      have hres := ih (b ++ c) (by simp)
        (by
          intro k hk
          have := hpre (k + 1) (by simpa using Nat.succ_lt_succ hk)
          rw [List.length_append]
          simpa [List.take_succ_cons, Nat.add_assoc] using this)
        (by
          rw [List.length_append]
          simpa [Nat.add_assoc] using htot)
      rw [hres]
      simp only [List.flatten_cons, List.append_assoc]

/-- C3: starting from an empty buffer, feeding a chunk sequence whose total
byte length first reaches the 5-second threshold at the final chunk causes
exactly one analysis call, carrying the entire accumulated buffer; the
retained buffer afterwards is exactly the trailing `overlap_size` bytes
(2 s), in particular of length `overlap_size`, not zero. -/
theorem streaming_trigger_once (cs : List (List ℕ))
    (hne : cs ≠ [])
    (hpre : ∀ k < cs.length,
      ((cs.take k).map List.length).sum < transcription_threshold)
    (htot : transcription_threshold ≤ (cs.map List.length).sum) :
    feedChunks [] cs =
        (takeLast overlap_size cs.flatten, [cs.flatten]) ∧
      (takeLast overlap_size cs.flatten).length = overlap_size := by
  have h := feedChunks_trigger_aux cs [] hne
    (by simpa using hpre) (by simpa using htot)
  rw [List.nil_append] at h
  refine ⟨h, takeLast_length _ _ ?_⟩
  have hlen : (cs.map List.length).sum = cs.flatten.length := by
    rw [List.length_flatten]
  rw [← hlen]
  calc overlap_size ≤ transcription_threshold := by norm_num [overlap_size,
    transcription_threshold]
  _ ≤ _ := htot

/-- C3 witness: a single 160000-byte chunk (exactly 5 s) triggers exactly one
analysis call with the whole buffer and leaves a 64000-byte overlap tail. -/
theorem streaming_trigger_once_witness :
    feedChunks [] [List.replicate 160000 0] =
        (takeLast overlap_size ([List.replicate 160000 0].flatten),
         [[List.replicate 160000 0].flatten]) ∧
      (takeLast overlap_size ([List.replicate 160000 0].flatten)).length =
        overlap_size :=
  streaming_trigger_once [List.replicate 160000 0] (List.cons_ne_nil _ _)
    (by
      intro k hk
      rw [List.length_cons, List.length_nil] at hk
      have hk0 : k = 0 := by omega
      subst hk0
      rw [List.take_zero, List.map_nil, List.sum_nil]
      norm_num [transcription_threshold])
    (by
      rw [List.map_cons, List.map_nil, List.length_replicate, List.sum_cons,
        List.sum_nil]
      norm_num [transcription_threshold])

/-! ## Session recording: `SessionRecorder`
    (backend/services/session_recorder.py)

    State of one recorder instance.  The wave/cv2 writer handles are
    modelled by open-flags; `persisted` is the metadata record written to
    `session.json` by `finalize`. -/

structure RecMetadata where
  session_id : String
  started_at : String
  session_dir : String
  ended_at : Option String
  audio_path : Option String
  video_path : Option String
  audio_duration_seconds : Option ℚ
  audio_bytes : Option ℕ
  video_frame_count : Option ℕ
  video_fps : Option ℕ
deriving DecidableEq

structure RecorderState where
  session_id : String
  sample_rate : ℕ
  video_fps : ℕ
  audio_path : String
  video_path : String
  audioWriterOpen : Bool
  videoWriterOpen : Bool
  videoSize : Option (ℕ × ℕ)
  audio_bytes_written : ℕ
  frame_count : ℕ
  closed : Bool
  metadata : RecMetadata
  persisted : Option RecMetadata
deriving DecidableEq

/-- `SessionRecorder.write_audio_chunk`: append raw PCM bytes; no-op on an
empty chunk or a closed recorder; lazily opens the WAV writer. -/
def write_audio_chunk (s : RecorderState) (pcm : List ℕ) : RecorderState :=
  if pcm.isEmpty || s.closed then s
  else
    let s1 := if s.audioWriterOpen then s else { s with audioWriterOpen := true }
    { s1 with audio_bytes_written := s1.audio_bytes_written + pcm.length }

/-- `SessionRecorder.write_video_frame`: append a BGR frame (given by its
height × width; `none` models a `None` frame); no-op on a missing/empty frame
or a closed recorder; the first frame fixes the session's video size. -/
def write_video_frame (s : RecorderState) (frame : Option (ℕ × ℕ)) :
    RecorderState :=
  match frame with
  | none => s
  | some (h, w) =>
    if h * w = 0 || s.closed then s
    else
      let s1 := if s.videoWriterOpen then s
        else { s with videoWriterOpen := true, videoSize := some (w, h) }
      if s1.videoWriterOpen then { s1 with frame_count := s1.frame_count + 1 }
      else s1

/-- `SessionRecorder.finalize`: on the first call close both writers, build
the final metadata record (totals, paths, duration) and persist it; on any
later call return the stored metadata unchanged. -/
def finalize (s : RecorderState) (now : String) : RecorderState × RecMetadata :=
  if s.closed then (s, s.metadata)
  else
    let audio_duration : ℚ :=
      if s.audio_bytes_written ≠ 0 then
        (s.audio_bytes_written : ℚ) / ((s.sample_rate : ℚ) * 2)
      else 0
    let md : RecMetadata := { s.metadata with
      ended_at := some now
      audio_path := if s.audio_bytes_written ≠ 0 then some s.audio_path else none
      video_path := if s.frame_count ≠ 0 then some s.video_path else none
      audio_duration_seconds := some audio_duration
      audio_bytes := some s.audio_bytes_written
      video_frame_count := some s.frame_count
      video_fps := some s.video_fps }
    let s' := { s with
      closed := true
      audioWriterOpen := false
      videoWriterOpen := false
      metadata := md
      persisted := some md }
    (s', md)

theorem finalize_of_closed (s : RecorderState) (t : String)
    (h : s.closed = true) : finalize s t = (s, s.metadata) := by
  unfold finalize
  rw [if_pos h]

theorem finalize_closed (s : RecorderState) (t : String) :
    (finalize s t).1.closed = true := by
  unfold finalize
  by_cases h : s.closed <;> simp [h]

theorem finalize_metadata_eq (s : RecorderState) (t : String) :
    (finalize s t).1.metadata = (finalize s t).2 := by
  unfold finalize
  by_cases h : s.closed <;> simp [h]

/-- C4: calling `finalize` a second time (with any later timestamp) returns
exactly the metadata of the first call, leaves the state — in particular the
closed writer handles — untouched, and raises no exception (the function is
total). -/
theorem finalize_idempotent (s : RecorderState) (t1 t2 : String) :
    (finalize (finalize s t1).1 t2).2 = (finalize s t1).2 ∧
      (finalize (finalize s t1).1 t2).1 = (finalize s t1).1 := by
  rw [finalize_of_closed _ t2 (finalize_closed s t1)]
  exact ⟨finalize_metadata_eq s t1, rfl⟩

/-- C10: after `finalize` has completed, `write_audio_chunk` and
`write_video_frame` return without raising (they are total functions) and
leave the recorder state — bytes written, frame count, persisted metadata,
writer status — exactly unchanged. -/
theorem writes_after_finalize_noop (s : RecorderState) (t : String)
    (pcm : List ℕ) (frame : Option (ℕ × ℕ)) :
    write_audio_chunk (finalize s t).1 pcm = (finalize s t).1 ∧
      write_video_frame (finalize s t).1 frame = (finalize s t).1 := by
  have hc := finalize_closed s t
  constructor
  · unfold write_audio_chunk
    rw [hc]
    simp
  · unfold write_video_frame
    match frame with
    | none => rfl
    | some (h, w) =>
      rw [hc]
      simp

/-! ## LLM commentary with rule-based fallback: `analyze_with_gemini`
    (backend/services/ai_analysis.py)

    The Gemini call is external; what the code controls is the retry loop
    (3 attempts), the JSON-parse check, and the deterministic rule-based
    fallback `_analyze_rule_based`.  An attempt's outcome is `some c` when
    the response parsed into a commentary object and `none` when
    `json.loads` raised.  `FeatDict` models the `audio_features` dict read
    with `.get(key, default)` (a missing key is `none`). -/

structure Commentary where
  keywords : List String
  keigo_feedback : String
  confidence_score : ℤ
  nervousness_score : ℤ
  overall_impression : String
deriving DecidableEq

structure FeatDict where
  average_volume : Option ℚ
  pause_count : Option ℤ
  pitch_variance : Option ℚ
deriving DecidableEq

/-- The fixed keyword table of `_extract_keywords_simple`. -/
def common_keywords : List String :=
  ["志望動機", "強み", "弱み", "経験", "スキル",
   "目標", "チーム", "リーダーシップ", "課題", "解決",
   "学習", "成長", "貢献", "やりがい", "挑戦"]

/-- Python `kw in text` on strings: substring containment. -/
def strContains (text kw : String) : Bool := decide (kw.data <:+: text.data)

/-- `_extract_keywords_simple`: keywords of the table occurring in the text
(capped at 10), or the fixed "none detected" message. -/
def extract_keywords_simple (text : String) : List String :=
  let found := common_keywords.filter (fun kw => strContains text kw)
  if found.isEmpty then ["キーワードが検出されませんでした"] else found.take 10

/-- `_check_keigo_simple`. -/
def check_keigo_simple (text : String) : String :=
  let issues :=
    (if strContains text "だ。" || strContains text "である。" then
      ["「だ・である」調が使われています。「です・ます」調に統一しましょう。"]
     else []) ++
    (if strContains text "ら抜き" || strContains text "れる" then
      ["ら抜き言葉に注意してください。"]
     else [])
  if issues.length = 0 then "敬語の使い方は概ね適切です。"
  else String.intercalate "\\n" issues

/-- `_estimate_confidence`: heuristic confidence from volume and pauses. -/
def estimate_confidence (f : FeatDict) : ℤ :=
  let volume := f.average_volume.getD (-30)
  let pauses := f.pause_count.getD 0
  let c1 : ℤ := 50 + (if volume > -20 then 20 else if volume > -30 then 10 else 0)
  let c2 : ℤ := c1 + (if pauses < 5 then 15 else if pauses < 10 then 5 else 0)
  min 100 (max 0 c2)

/-- `_estimate_nervousness`: heuristic nervousness from pitch variance and
pauses. -/
def estimate_nervousness (f : FeatDict) : ℤ :=
  let pv := f.pitch_variance.getD 0
  let pauses := f.pause_count.getD 0
  let n1 : ℤ := 30 + (if pv > 50 then 25 else if pv > 30 then 15 else 0)
  let n2 : ℤ := n1 + (if pauses > 10 then 20 else if pauses > 5 then 10 else 0)
  min 100 (max 0 n2)

/-- `_generate_impression`. -/
def generate_impression (transcript : String) (f : FeatDict) : String :=
  let pauses := f.pause_count.getD 0
  let imps :=
    (if transcript.length > 500 then ["十分な内容を話しています。"]
     else ["もう少し詳しく説明できると良いでしょう。"]) ++
    (if pauses < 5 then ["スムーズに話せています。"]
     else if pauses > 15 then ["少しポーズが多めです。リラックスして話しましょう。"]
     else [])
  String.intercalate " " imps

/-- `_analyze_rule_based`: the deterministic fallback commentary. -/
def analyze_rule_based (transcript : String) (f : FeatDict) : Commentary :=
  ⟨extract_keywords_simple transcript, check_keigo_simple transcript,
   estimate_confidence f, estimate_nervousness f,
   generate_impression transcript f⟩

/-- `analyze_with_gemini`: rule-based when no API key is configured;
otherwise up to 3 attempts, returning the first parsed response, falling
back to `_analyze_rule_based` when all 3 attempts fail to parse. -/
def analyze_with_gemini (api_key_configured : Bool)
    (responses : Fin 3 → Option Commentary)
    (transcript : String) (f : FeatDict) : Commentary :=
  if !api_key_configured then analyze_rule_based transcript f
  else
    match responses 0 with
    | some a => a
    | none =>
      match responses 1 with
      | some a => a
      | none =>
        match responses 2 with
        | some a => a
        | none => analyze_rule_based transcript f

theorem extract_keywords_nonempty (text : String) :
    extract_keywords_simple text ≠ [] := by
  simp only [extract_keywords_simple]
  split
  · exact List.cons_ne_nil _ _
  · next hne =>
    intro hcontra
    rw [List.take_eq_nil_iff] at hcontra
    rcases hcontra with h10 | hfil
    · exact absurd h10 (by norm_num)
    · rw [← List.isEmpty_iff] at hfil
      exact absurd hfil hne

/-- C9: when the API key is configured but the LLM response fails to parse
on every one of the 3 retry attempts, `analyze_with_gemini` returns exactly
the deterministic rule-based fallback commentary (rather than raising):
its keywords list is non-empty, and its confidence/nervousness scores are
the heuristics computed from the acoustic features. -/
theorem gemini_unparseable_fallback (responses : Fin 3 → Option Commentary)
    (h : ∀ i, responses i = none) (transcript : String) (f : FeatDict) :
    analyze_with_gemini true responses transcript f =
        analyze_rule_based transcript f ∧
      (analyze_with_gemini true responses transcript f).keywords ≠ [] ∧
      (analyze_with_gemini true responses transcript f).confidence_score =
        estimate_confidence f ∧
      (analyze_with_gemini true responses transcript f).nervousness_score =
        estimate_nervousness f := by
  have hres : analyze_with_gemini true responses transcript f =
      analyze_rule_based transcript f := by
    unfold analyze_with_gemini
    rw [h 0, h 1, h 2]
    simp
  refine ⟨hres, ?_, by rw [hres]; rfl, by rw [hres]; rfl⟩
  rw [hres]
  exact extract_keywords_nonempty transcript

/-- C9 witness: all three attempts unparseable on a concrete transcript and
feature dict. -/
theorem gemini_unparseable_fallback_witness :
    analyze_with_gemini true (fun _ => none) "志望動機は成長です" ⟨none, none, none⟩ =
        analyze_rule_based "志望動機は成長です" ⟨none, none, none⟩ ∧
      (analyze_with_gemini true (fun _ => none) "志望動機は成長です"
        ⟨none, none, none⟩).keywords ≠ [] ∧
      (analyze_with_gemini true (fun _ => none) "志望動機は成長です"
        ⟨none, none, none⟩).confidence_score =
        estimate_confidence ⟨none, none, none⟩ ∧
      (analyze_with_gemini true (fun _ => none) "志望動機は成長です"
        ⟨none, none, none⟩).nervousness_score =
        estimate_nervousness ⟨none, none, none⟩ :=
  gemini_unparseable_fallback (fun _ => none) (fun _ => rfl) _ _

/-! ## Post-session pipeline: `run_post_session_pipeline`
    (backend/services/post_session_pipeline.py, lines 23-98) and
    `analyze_audio_features` (backend/services/audio_analysis.py)

    JSON-ish dict values; each external stage (transcription, voice emotion,
    Gemini, video analysis) is a black box whose result is a parameter of the
    environment.  `audio_load` is the outcome of decoding the audio file
    inside `analyze_audio_features` (`librosa.load` and the subsequent DSP):
    `.error msg` models the `except Exception` branch. -/

inductive JVal where
  | s : String → JVal
  | q : ℚ → JVal
  | n : ℤ → JVal
  | b : Bool → JVal
deriving DecidableEq

abbrev JDict := List (String × JVal)

def jlookup (k : String) (d : JDict) : Option JVal :=
  (d.find? (fun p => p.1 == k)).map (fun p => p.2)

def jgetQ (k : String) (d : JDict) : ℚ :=
  match jlookup k d with
  | some (.q x) => x
  | some (.n i) => (i : ℚ)
  | _ => 0

/-- Python dict assignment `d[k] = v`: replace the key when present, append
otherwise. -/
def dictSet (d : JDict) (k : String) (v : JVal) : JDict :=
  if d.any (fun p => p.1 == k) then
    d.map (fun p => if p.1 == k then (p.1, v) else p)
  else d ++ [(k, v)]

/-- The successfully computed feature values of `analyze_audio_features`. -/
structure AudioFeatValues where
  speech_rate : ℚ
  average_volume : ℚ
  volume_variance : ℚ
  pause_count : ℤ
  pause_total_duration : ℚ
  pitch_mean : ℚ
  pitch_variance : ℚ
  duration : ℚ
  speech_duration : ℚ
deriving DecidableEq

def audio_feat_dict (v : AudioFeatValues) : JDict :=
  [("speech_rate", .q v.speech_rate), ("average_volume", .q v.average_volume),
   ("volume_variance", .q v.volume_variance), ("pause_count", .n v.pause_count),
   ("pause_total_duration", .q v.pause_total_duration),
   ("pitch_mean", .q v.pitch_mean), ("pitch_variance", .q v.pitch_variance),
   ("duration", .q v.duration), ("speech_duration", .q v.speech_duration)]

/-- `analyze_audio_features`: the success dict, or — when loading/analysing
the file raises (missing data, corrupt/empty file) — the all-zero dict
carrying an `"error"` message.  No `"available"` key exists in either
branch. -/
def analyze_audio_features_dict (loaded : Except String AudioFeatValues) :
    JDict :=
  match loaded with
  | .ok v => audio_feat_dict v
  | .error e =>
      [("speech_rate", .q 0), ("average_volume", .q 0), ("volume_variance", .q 0),
       ("pause_count", .n 0), ("pause_total_duration", .q 0), ("pitch_mean", .q 0),
       ("pitch_variance", .q 0), ("duration", .q 0), ("speech_duration", .q 0),
       ("error", .s e)]

/-- `calculate_actual_speech_rate` (backend/services/audio_analysis.py,
lines 119-136). -/
def calculate_actual_speech_rate (text : String) (duration : ℚ) : ℚ :=
  if duration ≤ 0 then 0
  else pyRound1 ((text.length : ℚ) / (duration / 60))

structure PipelineEnv where
  session_id : String
  audio_path : Option String
  audio_file_exists : Bool
  video_path : Option String
  video_file_exists : Bool
  audio_load : Except String AudioFeatValues
  transcript_dict : JDict
  transcript_text : String
  transcript_duration : ℚ
  voice_emotion_dict : JDict
  emotion_feedback : String
  ai_dict : JDict
  video_dict : JDict

structure ReportPayload where
  filename : String
  transcription : JDict
  audio : JDict
  ai : JDict
  emotion : JDict
  emotion_feedback : String
  video : JDict

/-- `audio_path and Path(audio_path).exists()`. -/
def audioAvailable (env : PipelineEnv) : Bool :=
  match env.audio_path with
  | some _ => env.audio_file_exists
  | none => false

/-- `video_path and Path(video_path).exists()`. -/
def videoAvailable (env : PipelineEnv) : Bool :=
  match env.video_path with
  | some _ => env.video_file_exists
  | none => false

/-- `run_post_session_pipeline`: assemble the report payload, skipping the
audio stages when the audio file is missing, skipping AI commentary when
there is no transcript text, and marking the video block unavailable when
no video was recorded.  (`Path(p).name` is modelled as the path string
itself; report-file writing is outside the payload.) -/
def run_post_session_pipeline (env : PipelineEnv) : ReportPayload :=
  let audioOk := audioAvailable env
  let transcript := if audioOk then env.transcript_dict else []
  let audio0 := if audioOk then analyze_audio_features_dict env.audio_load else []
  let audio_features :=
    if audioOk then
      let d1 := jgetQ "duration" audio0
      let d := if d1 ≠ 0 then d1
        else if env.transcript_duration ≠ 0 then env.transcript_duration else 0
      dictSet audio0 "speech_rate"
        (.q (calculate_actual_speech_rate env.transcript_text d))
    else audio0
  let ai := if audioOk ∧ env.transcript_text ≠ "" then env.ai_dict else []
  let emotion := if audioOk then env.voice_emotion_dict else []
  let feedback := if audioOk then env.emotion_feedback else ""
  let video := if videoAvailable env then env.video_dict
    else [("available", JVal.b false),
          ("message", JVal.s "映像が記録されていないため、ボーン解析は省略されました")]
  let filename := match env.audio_path with
    | some p => p
    | none => env.session_id ++ ".wav"
  ⟨filename, transcript, audio_features, ai, emotion, feedback, video⟩

/-- A session whose recording produced no audio file at all. -/
def missingAudioEnv : PipelineEnv :=
  { session_id := "s1", audio_path := none, audio_file_exists := false,
    video_path := none, video_file_exists := false,
    audio_load := .error "missing", transcript_dict := [],
    transcript_text := "", transcript_duration := 0,
    voice_emotion_dict := [], emotion_feedback := "", ai_dict := [],
    video_dict := [] }

/-- A session whose audio file exists but cannot be decoded (empty or
corrupt). -/
def corruptAudioEnv : PipelineEnv :=
  { session_id := "s1", audio_path := some "audio.wav",
    audio_file_exists := true,
    video_path := none, video_file_exists := false,
    audio_load := .error "corrupt", transcript_dict := [],
    transcript_text := "", transcript_duration := 0,
    voice_emotion_dict := [], emotion_feedback := "", ai_dict := [],
    video_dict := [] }

/-- C5 counterexample: for a session with no audio file the pipeline does
return a payload without raising, but its acoustic-feature block is the
EMPTY dict — it carries no `available` key at all, hence no explicit
`available=false` flag as the claim states. -/
theorem pipeline_missing_audio_no_available_flag :
    (run_post_session_pipeline missingAudioEnv).audio = [] ∧
      jlookup "available" (run_post_session_pipeline missingAudioEnv).audio =
        none := by
  constructor <;> rfl

/-- C5 amended: the pipeline is total (never raises) and degrades as
follows: with the audio file missing the acoustic block of the payload is
the empty dict and carries no `available` key; with the file present but
undecodable (empty/corrupt) the acoustic block is the all-zero feature dict
with an `"error"` message and likewise carries no `available` key (the
`available:false` marker exists only on the video block). -/
theorem pipeline_degraded_audio (env : PipelineEnv) :
    (audioAvailable env = false →
      (run_post_session_pipeline env).audio = [] ∧
        jlookup "available" (run_post_session_pipeline env).audio = none) ∧
      (∀ e, audioAvailable env = true → env.audio_load = .error e →
        jlookup "error" (run_post_session_pipeline env).audio =
            some (.s e) ∧
          jlookup "available" (run_post_session_pipeline env).audio = none ∧
          jgetQ "pitch_mean" (run_post_session_pipeline env).audio = 0) := by
  constructor
  · intro h
    have hempty : (run_post_session_pipeline env).audio = [] := by
      simp only [run_post_session_pipeline, h, Bool.false_eq_true, if_false]
    exact ⟨hempty, by rw [hempty]; rfl⟩
  · intro e h he
    simp only [run_post_session_pipeline, h, he, if_true]
    refine ⟨?_, ?_, ?_⟩ <;>
      simp [analyze_audio_features_dict, dictSet, jlookup, jgetQ, List.find?]

/-- C5 amended, witness: the two degraded environments above. -/
theorem pipeline_degraded_audio_witness :
    ((run_post_session_pipeline missingAudioEnv).audio = [] ∧
      jlookup "available" (run_post_session_pipeline missingAudioEnv).audio =
        none) ∧
      (jlookup "error" (run_post_session_pipeline corruptAudioEnv).audio =
          some (.s "corrupt") ∧
        jlookup "available" (run_post_session_pipeline corruptAudioEnv).audio =
          none ∧
        jgetQ "pitch_mean" (run_post_session_pipeline corruptAudioEnv).audio =
          0) :=
  ⟨(pipeline_degraded_audio missingAudioEnv).1 rfl,
   (pipeline_degraded_audio corruptAudioEnv).2 "corrupt" rfl rfl⟩
